import Mathlib

/-!
Shallow embedding of the table renderer in `src/backend/latex_generator.py`
(class `LatexGenerator`, methods `escape_latex` and `process_worksheet`).

Modelling conventions: Python floats are modelled by exact rationals (ℚ);
`f"{x:.2f}"` formatting is modelled by rounding `x * 100` half-to-even.
Python cell values of mixed type are modelled by the inductive `Value`
(`None`, `str`, `int`, `float`, `bool`), with Python truthiness and
`str()` stringification made explicit.  `str.strip()` is modelled over the
ASCII whitespace characters Python strips.  All string manipulation is done
on `List Char`, which matches Python's per-character `str.replace` and
`str.split` semantics exactly for the single-character patterns the source
uses.
-/

namespace LodMatrix

/-- A Python cell value as delivered by openpyxl: `None`, a string, an
integer, a float (modelled as an exact rational) or a boolean. -/
inductive Value where
  | none
  | str (s : String)
  | int (n : ℤ)
  | float (q : ℚ)
  | bool (b : Bool)
deriving DecidableEq

/-- Python whitespace characters stripped by `str.strip()` (ASCII part;
the source data never contains non-ASCII whitespace). -/
def isPySpace (c : Char) : Bool :=
  c == ' ' || c == '\t' || c == '\n' || c == '\r' || c == '\x0b' || c == '\x0c'

/-- Model of Python `str.strip()`: drop leading and trailing whitespace. -/
def pyStrip (s : List Char) : List Char :=
  ((s.dropWhile isPySpace).reverse.dropWhile isPySpace).reverse

/-- Decimal digits of the fractional part of a nonnegative rational,
up to `fuel` digits (used to model `str(float)` on the simple decimal
values that occur in configurations and cells). -/
def fracDigits : ℕ → ℚ → List Char
  | 0, _ => []
  | fuel + 1, r =>
    if r = 0 then []
    else
      let r10 := r * 10
      let d := (⌊r10⌋).toNat
      Char.ofNat (48 + d) :: fracDigits fuel (r10 - (⌊r10⌋ : ℚ))

/-- Model of Python `str()` on a float value: sign, integer part, a dot and
the fractional digits (`"0.0"` for zero, matching CPython). -/
def floatStr (q : ℚ) : String :=
  (if q < 0 then "-" else "") ++ toString ((⌊|q|⌋).toNat) ++ "."
    ++ (if (fracDigits 17 (|q| - (⌊|q|⌋ : ℚ))).isEmpty then "0"
        else String.mk (fracDigits 17 (|q| - (⌊|q|⌋ : ℚ))))

/-- Python truthiness (`if not text:`) on a cell value: `None`, `""`, `0`,
`0.0` and `False` are falsy. -/
def pyTruthy : Value → Bool
  | .none => false
  | .str s => !s.data.isEmpty
  | .int n => n != 0
  | .float q => decide (q ≠ 0)
  | .bool b => b

/-- Python `str()` on a cell value, as a character list. -/
def pyStr : Value → List Char
  | .none => "None".data
  | .str s => s.data
  | .int n => (toString n).data
  | .float q => (floatStr q).data
  | .bool b => if b then "True".data else "False".data

/-- The emptiness test of `process_worksheet`
(`cell is not None and str(cell).strip()`): a cell counts as non-empty iff
it is not `None` and its stringification is non-blank after stripping. -/
def cellNonEmpty : Value → Bool
  | .none => false
  | v => !(pyStrip (pyStr v)).isEmpty

/-- Python `s.replace(c, r)` for a single-character pattern `c`:
every occurrence of `c` is replaced by `r`, in one left-to-right pass. -/
def replaceChar (c : Char) (r : List Char) : List Char → List Char
  | [] => []
  | x :: xs => (if x = c then r else [x]) ++ replaceChar c r xs

/-- Python `s.split(c)` for a single-character separator: split at every
occurrence, keeping empty fragments (so the result is always non-empty). -/
def splitOnChar (c : Char) : List Char → List (List Char)
  | [] => [[]]
  | x :: xs =>
    match splitOnChar c xs with
    | [] => if x = c then [[], []] else [[x]]
    | p :: ps => if x = c then [] :: p :: ps else (x :: p) :: ps

/-- The ordered substitution table of `_escape_chars` in `escape_latex`:
backslash first, then `&`, `%`, `$`, `#`, `_`, `{`, `}`, `~`, `^`, each
replacement applied to the result of the previous one, exactly as the
chained `str.replace` calls in the source. -/
def escRules : List (Char × List Char) :=
  [('\\', "\\textbackslash\x7b\x7d".data),
   ('&', "\\&".data),
   ('%', "\\%".data),
   ('$', "\\$".data),
   ('#', "\\#".data),
   ('_', "\\_".data),
   ('\x7b', "\\\x7b".data),
   ('\x7d', "\\\x7d".data),
   ('~', "\\textasciitilde\x7b\x7d".data),
   ('^', "\\textasciicircum\x7b\x7d".data)]

/-- The ten LaTeX-special characters handled by `_escape_chars`. -/
def escRuleChars : List Char :=
  ['\\', '&', '%', '$', '#', '_', '\x7b', '\x7d', '~', '^']

/-- `_escape_chars`: the ten substitutions applied sequentially in order. -/
def escChars (s : List Char) : List Char :=
  escRules.foldl (fun acc r => replaceChar r.1 r.2 acc) s

/-- The bullet branch of `escape_latex`: collapse newlines to spaces, split
on `•`, strip fragments and drop blank ones, escape each fragment, prefix
each with `"• "` and join with `" \newline "`. -/
def bulletize (ts : List Char) : List Char :=
  let ts2 := replaceChar '\n' [' '] ts
  let items := ((splitOnChar '•' ts2).map pyStrip).filter (fun i => !i.isEmpty)
  List.intercalate " \\newline ".data (items.map (fun i => "• ".data ++ escChars i))

/-- `escape_latex` on a cell value, as a character list: falsy values give
`""`; otherwise the stringified value is bulletized when it contains `•`,
and run through `_escape_chars` when it does not. -/
def escLatexChars (v : Value) : List Char :=
  if pyTruthy v then
    let ts := pyStr v
    if ts.contains '•' then bulletize ts else escChars ts
  else []

/-- `escape_latex` returning a `String`. -/
def escapeLatex (v : Value) : String :=
  String.mk (escLatexChars v)

/-- The bullet-mode pipeline transcribed from the specification's words
(§4.3): replace every embedded newline with a space, split on the bullet
delimiter, trim each fragment and discard the ones empty after trimming,
apply the character-escaping rules to each fragment independently, prefix
each with the bullet marker, and join with the line-break marker.  Stated
separately so the code's bullet branch can be compared against it. -/
def bulletModeSpec (ts : List Char) : List Char :=
  List.intercalate " \\newline ".data
    ((((splitOnChar '•' (replaceChar '\n' [' '] ts)).map pyStrip).filter
        (fun i => !i.isEmpty)).map (fun frag => "• ".data ++ escChars frag))

/-! ## Column selection and width planning -/

/-- The fixed 9-letter column universe of `process_worksheet`. -/
def allLetters : List Char :=
  ['A', 'B', 'C', 'D', 'E', 'F', 'G', 'H', 'I']

/-- `final_letters`: the participating columns, in fixed order. -/
def finalLetters (excl : List Char) : List Char :=
  allLetters.filter (fun l => !(excl.contains l))

/-- `col_letter_to_index`: zero-based column index of a letter. -/
def colIndex (c : Char) : ℕ :=
  c.toNat - 'A'.toNat

/-- `final_indices`: zero-based indices of the participating columns. -/
def finalIndices (excl : List Char) : List ℕ :=
  (finalLetters excl).map colIndex

/-- `n_AB`: number of participating columns among A and B. -/
def nAB (fl : List Char) : ℕ :=
  (fl.filter (fun l => l == 'A' || l == 'B')).length

/-- `n_others`: number of participating columns other than A and B. -/
def nOthers (fl : List Char) : ℕ :=
  (fl.filter (fun l => !(l == 'A' || l == 'B'))).length

/-- Round half to even, the tie rule used by Python's string formatting
(ties never arise at the inputs the claims evaluate). -/
def rhe (q : ℚ) : ℤ :=
  if q - (⌊q⌋ : ℚ) < 1 / 2 then ⌊q⌋
  else if (1 : ℚ) / 2 < q - (⌊q⌋ : ℚ) then ⌊q⌋ + 1
  else if (⌊q⌋) % 2 = 0 then ⌊q⌋ else ⌊q⌋ + 1

/-- The numeric value printed by `f"{q:.2f}"`. -/
def round2 (q : ℚ) : ℚ :=
  (rhe (q * 100) : ℚ) / 100

/-- Two-digit zero-padded rendering of a number below 100. -/
def pad2 (n : ℕ) : String :=
  if n < 10 then "0" ++ toString n else toString n

/-- Model of Python `f"{q:.2f}"`: round to two decimals and print with
exactly two fractional digits. -/
def fmt2 (q : ℚ) : String :=
  (if rhe (q * 100) < 0 then "-" else "")
    ++ toString ((rhe (q * 100)).natAbs / 100) ++ "."
    ++ pad2 ((rhe (q * 100)).natAbs % 100)

/-- `total_width = float(total_table_width) if total_table_width else 15.6`:
a present but falsy (zero) value falls back to 15.6. -/
def effTotalWidth (t : ℚ) : ℚ :=
  if t = 0 then 156 / 10 else t

/-- The auto-distribution width pair `(w_AB, w_others)` of
`process_worksheet` (lines 92–97): `w_others = W / (3*n_AB + n_others)`
and `w_AB = 3 * w_others` when the denominator is positive, otherwise
`W / len(final_letters) if final_letters else 1.0` (the conditional
expression binds as `W / len(fl) if fl else 1.0`, so with no participating
columns both widths are 1.0, not W). -/
def autoWidthPair (W : ℚ) (fl : List Char) : ℚ × ℚ :=
  if 0 < 3 * nAB fl + nOthers fl then
    let wo := W / (3 * (nAB fl : ℚ) + (nOthers fl : ℚ))
    (3 * wo, wo)
  else if fl.isEmpty then (1, 1)
  else (W / fl.length, W / fl.length)

/-- Association-list lookup with default, modelling `dict.get(k, d)`. -/
def lookupD (cw : List (Char × ℚ)) (c : Char) (d : ℚ) : ℚ :=
  (cw.lookup c).getD d

/-- The configuration record consumed by `process_worksheet`: the exclusion
list, the manual column-width mapping (values as numbers; Python carries
them as strings and parses them with `float`), the optional total width
triggering auto-distribution, and the font size. -/
structure Config where
  excludedColumns : List Char
  columnWidths : List (Char × ℚ)
  totalTableWidth : Option ℚ
  fontSize : String

/-- Manual-mode width of a column as it appears in the body column
specification (lines 106–111 and 141–150): `widths.get('A', '6.7')` for A,
`widths.get('B', '4.0')` for B, and the shared `widths.get('C', '2.0')`
for every other column. -/
def bodyWidthManual (cw : List (Char × ℚ)) (l : Char) : ℚ :=
  if l == 'A' then lookupD cw 'A' (67 / 10)
  else if l == 'B' then lookupD cw 'B' 4
  else lookupD cw 'C' 2

/-- Manual-mode contribution of a column to the banner total
(lines 132–136): `widths.get(l, '4.0')` for A and B — note the default for
A differs from the `'6.7'` used in the body spec — and
`widths.get('C', '2.0')` otherwise. -/
def bannerWidthManual (cw : List (Char × ℚ)) (l : Char) : ℚ :=
  if l == 'A' || l == 'B' then lookupD cw l 4
  else lookupD cw 'C' 2

/-- Auto-mode contribution of a column to the banner total
(lines 124–131): the regex `m\{([\d.]+)cm\}` re-extracts the 2-decimal
formatted width from the column spec string; it matches exactly when the
width is nonnegative (a negative width formats with a leading `-` and the
regex then fails), and on failure the fallback `'2.0'` is used. -/
def bannerWidthAuto (W : ℚ) (fl : List Char) (l : Char) : ℚ :=
  if l == 'A' || l == 'B' then
    if 0 ≤ (autoWidthPair W fl).1 then round2 (autoWidthPair W fl).1 else 2
  else
    if 0 ≤ (autoWidthPair W fl).2 then round2 (autoWidthPair W fl).2 else 2

/-- The recomputed total width summed in lines 122–137, before the final
`f"{total_width:.2f}cm"` formatting. -/
def bannerTotal (cfg : Config) : ℚ :=
  let fl := finalLetters cfg.excludedColumns
  match cfg.totalTableWidth with
  | some t => (fl.map (bannerWidthAuto (effTotalWidth t) fl)).sum
  | Option.none => (fl.map (bannerWidthManual cfg.columnWidths)).sum

/-- The number printed in the title and trailer banners
(`total_width_str = f"{total_width:.2f}cm"`). -/
def declaredTotal (cfg : Config) : ℚ :=
  round2 (bannerTotal cfg)

/-- The sum of the per-column widths actually used in the manual-mode body
column specification. -/
def bodySumManual (cw : List (Char × ℚ)) (excl : List Char) : ℚ :=
  ((finalLetters excl).map (bodyWidthManual cw)).sum

/-! ## Row emitter -/

/-- `original_filtered = [row[i] if i < len(row) else None for i in
final_indices]`: project a raw row onto the participating indices. -/
def originalFiltered (fi : List ℕ) (row : List Value) : List Value :=
  fi.map (fun i => row.getD i Value.none)

/-- `row_has_content`: at least one participating cell is non-empty. -/
def rowHasContent (fi : List ℕ) (row : List Value) : Bool :=
  (originalFiltered fi row).any cellNonEmpty

/-- `has_content_only_in_A` (lines 203–210): column A participates, its
projected value is non-empty, and every other projected value is empty. -/
def hasContentOnlyInA (excl : List Char) (fi : List ℕ) (row : List Value) : Bool :=
  if excl.contains 'A' then false
  else
    cellNonEmpty ((originalFiltered fi row).getD 0 Value.none)
      && ((originalFiltered fi row).drop 1).all (fun c => !cellNonEmpty c)

/-- `filtered = [escaped[i] for i in final_indices]`: the escaped cells of
a row at the participating indices.  (Python would raise `IndexError` on an
index past the row's end; openpyxl pads every row to the sheet's full
column span, and the embedding reads an out-of-range cell as the escape of
an absent cell, i.e. `""`.) -/
def rowCells (fi : List ℕ) (row : List Value) : List String :=
  fi.map (fun i => (row.map escapeLatex).getD i "")

/-- The single output line contributed by a row that has content: the
highlighted section-header form when only column A has content, the plain
joined form otherwise (lines 212–215; both end in the literal
space-plus-single-backslash of the source). -/
def emitLine (excl : List Char) (fi : List ℕ) (row : List Value) : String :=
  if hasContentOnlyInA excl fi row then
    "\\rowcolor\x7bheadercolor\x7d" ++ String.intercalate " & " (rowCells fi row) ++ " \\"
  else
    String.intercalate " & " (rowCells fi row) ++ " \\"

/-- The contribution of one data row: nothing when every participating
cell is empty, exactly one line otherwise (lines 190–215). -/
def rowLine (excl : List Char) (fi : List ℕ) (row : List Value) : Option String :=
  if rowHasContent fi row then some (emitLine excl fi row) else Option.none

/-- `body_rows`: the emitted lines of all data rows, in sheet order. -/
def bodyRows (excl : List Char) (fi : List ℕ) (rows : List (List Value)) : List String :=
  rows.filterMap (rowLine excl fi)

/-! ## Full worksheet rendering -/

/-- The worksheet as the renderer reads it: the title cell `A1`, the header
row 2 (indexed by column, absent cells read as `None`), and the data rows
from row 3 on. -/
structure Sheet where
  a1 : Value
  row2 : List Value
  dataRows : List (List Value)

/-- Auto-mode body column spec string for one letter (lines 99–104). -/
def colSpecAuto (W : ℚ) (fl : List Char) (l : Char) : String :=
  if l == 'A' || l == 'B' then
    "m\x7b" ++ fmt2 (autoWidthPair W fl).1 ++ "cm\x7d"
  else
    ">\x7b\\centering\\arraybackslash\x7dm\x7b" ++ fmt2 (autoWidthPair W fl).2 ++ "cm\x7d"

/-- Manual-mode body column spec string for one letter (lines 106–111 and
146–149; Python interpolates the configured width string verbatim, which
`floatStr` reproduces for the decimal values the app uses). -/
def colSpecManual (cw : List (Char × ℚ)) (l : Char) : String :=
  if l == 'A' then "m\x7b" ++ floatStr (lookupD cw 'A' (67 / 10)) ++ "cm\x7d"
  else if l == 'B' then "m\x7b" ++ floatStr (lookupD cw 'B' 4) ++ "cm\x7d"
  else ">\x7b\\centering\\arraybackslash\x7dm\x7b" ++ floatStr (lookupD cw 'C' 2) ++ "cm\x7d"

/-- One header cell of the repeated header row. -/
def headerCellTex (h : String) : String :=
  "\\textcolor\x7bwhite\x7d\x7b\\textbf\x7b" ++ h ++ "\x7d\x7d"

/-- The full-width title banner line (first and continued variants differ
only in the `inner` argument). -/
def bannerLine (n : ℕ) (tws inner : String) : String :=
  "\\rowcolor\x7bheadercolor\x7d\\multicolumn\x7b" ++ toString n
    ++ "\x7d\x7b|c|\x7d\x7b\\parbox[c][4ex][c]\x7b" ++ tws
    ++ "\x7d\x7b\\centering\\textcolor\x7bwhite\x7d\x7b\\textbf\x7b" ++ inner
    ++ "\x7d\x7d\x7d\x7d \\\\"

/-- The fixed color-definition preamble comment block (lines 152–158). -/
def colorDefinition : String :=
  "% Add these packages to your LaTeX document preamble:\n"
    ++ "% \\usepackage\x7barray\x7d\n"
    ++ "% \\usepackage\x7bxcolor\x7d\n"
    ++ "% \\usepackage\x7bcolortbl\x7d\n"
    ++ "% \\usepackage\x7blongtable\x7d\n"
    ++ "\\definecolor\x7bheadercolor\x7d\x7bHTML\x7d\x7b00ACD2\x7d\n"

/-- `process_worksheet`: full rendering of one worksheet to its LaTeX
string (lines 77–220). -/
def processWorksheet (cfg : Config) (ws : Sheet) : String :=
  let excl := cfg.excludedColumns
  let fl := finalLetters excl
  let fi := fl.map colIndex
  let tabularParts := fl.map (fun l =>
    match cfg.totalTableWidth with
    | some t => colSpecAuto (effTotalWidth t) fl l
    | Option.none => colSpecManual cfg.columnWidths l)
  let tabularSpec := "|" ++ String.intercalate "|" tabularParts ++ "|"
  let headerTitle := if pyTruthy ws.a1 then escapeLatex ws.a1 else "Table"
  let headers := fl.map (fun l =>
    let hv := ws.row2.getD (colIndex l) Value.none
    escapeLatex (if pyTruthy hv then hv else Value.str ("Column " ++ Char.toString l)))
  let totalWidthStr := fmt2 (bannerTotal cfg) ++ "cm"
  let headersTex := String.intercalate " & " (headers.map headerCellTex)
  let n := fl.length
  let headerLatex := String.intercalate "\n"
    ["",
     "\\" ++ cfg.fontSize,
     "\\begin\x7blongtable\x7d\x7b" ++ tabularSpec ++ "\x7d",
     "\\hline",
     bannerLine n totalWidthStr ("\\normalsize\x7b" ++ headerTitle ++ "\x7d"),
     "\\hline",
     "\\rowcolor\x7bheadercolor\x7d" ++ headersTex ++ " \\\\",
     "\\hline",
     "\\endfirsthead",
     "",
     "\\hline",
     bannerLine n totalWidthStr ("\\normalsize\x7b" ++ headerTitle ++ "\x7d (continued)"),
     "\\hline",
     "\\rowcolor\x7bheadercolor\x7d" ++ headersTex ++ " \\\\",
     "\\hline",
     "\\endhead",
     "",
     "\\hline",
     "\\multicolumn\x7b" ++ toString n ++ "\x7d\x7b|r|\x7d\x7b\\textit\x7bContinued on next page...\x7d\x7d \\\\",
     "\\hline",
     "\\endfoot",
     "",
     "\\hline",
     "\\endlastfoot",
     ""]
  let bodyLatex := String.intercalate "\n\\hline\n" (bodyRows excl fi ws.dataRows)
  colorDefinition ++ "\n" ++ headerLatex ++ bodyLatex ++ "\n\\end\x7blongtable\x7d"

/-! ## Claim theorems -/

/-- `fracDigits` of a zero fractional part is empty, for any fuel. -/
theorem fracDigits_zero : ∀ fuel, fracDigits fuel 0 = [] := by
  intro fuel
  cases fuel with
  | zero => rfl
  | succ n => rw [fracDigits, if_pos rfl]

/-- Evaluation helper: `⌊q⌋ = f` from the two bracketing inequalities. -/
theorem floor_eval {q : ℚ} {f : ℤ} (h1 : (f : ℚ) ≤ q) (h2 : q < f + 1) : ⌊q⌋ = f := by
  rw [Int.floor_eq_iff]; exact ⟨h1, h2⟩

/-- Evaluation helper: `rhe` rounds down when the fractional part is
below a half. -/
theorem rhe_lt {q : ℚ} {f : ℤ} (hf : ⌊q⌋ = f) (h : q - f < 1 / 2) : rhe q = f := by
  rw [rhe, hf, if_pos h]

/-- Evaluation helper: `rhe` rounds up when the fractional part is above
a half. -/
theorem rhe_gt {q : ℚ} {f : ℤ} (hf : ⌊q⌋ = f) (h : 1 / 2 < q - f) : rhe q = f + 1 := by
  rw [rhe, hf, if_neg (by linarith), if_pos h]

/-- Evaluation helper for `round2` in the round-down case. -/
theorem round2_lt {q : ℚ} {f : ℤ} (hf : ⌊q * 100⌋ = f) (h : q * 100 - f < 1 / 2) :
    round2 q = f / 100 := by
  rw [round2, rhe_lt hf h]

/-- Evaluation helper for `round2` in the round-up case. -/
theorem round2_gt {q : ℚ} {f : ℤ} (hf : ⌊q * 100⌋ = f) (h : 1 / 2 < q * 100 - f) :
    round2 q = ((f : ℚ) + 1) / 100 := by
  rw [round2, rhe_gt hf h]; push_cast; ring

/-- C1: the claim asserts that in manual mode the banner total always
equals the sum of the body column widths, also when `column_widths` omits
an entry for A.  The code contradicts this: with `column_widths = {}` and
the default exclusions, the body spec gives column A its default `6.7` cm
(line 108) while the banner total sums the default `4.0` for A (line 134),
so the banners declare `12.00cm` while the body columns sum to `14.7` cm. -/
theorem c1_manual_default_total_mismatch :
    declaredTotal ⟨['B', 'C', 'D', 'E'], [], Option.none, "footnotesize"⟩ = 12
      ∧ bodySumManual [] ['B', 'C', 'D', 'E'] = 147 / 10
      ∧ declaredTotal ⟨['B', 'C', 'D', 'E'], [], Option.none, "footnotesize"⟩
          ≠ bodySumManual [] ['B', 'C', 'D', 'E'] := by
  have hfl : finalLetters ['B', 'C', 'D', 'E'] = ['A', 'F', 'G', 'H', 'I'] := by decide
  have hbA : bannerWidthManual [] 'A' = 4 := by
    rw [bannerWidthManual, if_pos (by decide)]; rfl
  have hbM : ∀ l : Char, (l == 'A' || l == 'B') = false → bannerWidthManual [] l = 2 := by
    intro l h
    rw [bannerWidthManual, h, if_neg (by decide)]; rfl
  have hcA : bodyWidthManual [] 'A' = 67 / 10 := by
    rw [bodyWidthManual, if_pos (by decide)]; rfl
  have hcM : ∀ l : Char, (l == 'A') = false → (l == 'B') = false → bodyWidthManual [] l = 2 := by
    intro l h1 h2
    rw [bodyWidthManual, h1, if_neg (by decide), h2, if_neg (by decide)]; rfl
  have h1 : declaredTotal ⟨['B', 'C', 'D', 'E'], [], Option.none, "footnotesize"⟩ = 12 := by
    have hbt : bannerTotal ⟨['B', 'C', 'D', 'E'], [], Option.none, "footnotesize"⟩ = 12 := by
      simp only [bannerTotal, hfl]
      simp only [List.map_cons, List.map_nil, hbA, hbM 'F' (by decide), hbM 'G' (by decide),
        hbM 'H' (by decide), hbM 'I' (by decide), List.sum_cons, List.sum_nil]
      norm_num
    rw [declaredTotal, hbt]
    have hf : ⌊(12 : ℚ) * 100⌋ = 1200 := by apply floor_eval <;> norm_num
    rw [round2_lt hf (by norm_num)]; norm_num
  have h2 : bodySumManual [] ['B', 'C', 'D', 'E'] = 147 / 10 := by
    simp only [bodySumManual, hfl]
    simp only [List.map_cons, List.map_nil, hcA, hcM 'F' (by decide) (by decide),
      hcM 'G' (by decide) (by decide), hcM 'H' (by decide) (by decide),
      hcM 'I' (by decide) (by decide), List.sum_cons, List.sum_nil]
    norm_num
  exact ⟨h1, h2, by rw [h1, h2]; norm_num⟩

/-- C2, counterexample: with `total_table_width = 1` and columns A and B
excluded there are 7 participating columns, each formatted width is
`0.14`, and the sum `0.98` of the emitted widths misses the requested
total `1` by `0.02 > 0.01`. -/
theorem c2_counterexample_rounded_sum :
    0 < nAB (finalLetters ['A', 'B']) + nOthers (finalLetters ['A', 'B'])
      ∧ (1 : ℚ) / 100 < |bannerTotal ⟨['A', 'B'], [], some 1, "footnotesize"⟩ - 1| := by
  have hfl : finalLetters ['A', 'B'] = ['C', 'D', 'E', 'F', 'G', 'H', 'I'] := by decide
  have he : effTotalWidth 1 = 1 := by rw [effTotalWidth, if_neg (by norm_num)]
  have hap : autoWidthPair 1 ['C', 'D', 'E', 'F', 'G', 'H', 'I'] = (3 / 7, 1 / 7) := by
    rw [autoWidthPair, if_pos (by decide)]
    rw [show nAB ['C', 'D', 'E', 'F', 'G', 'H', 'I'] = 0 from by decide,
      show nOthers ['C', 'D', 'E', 'F', 'G', 'H', 'I'] = 7 from by decide]
    norm_num [Prod.mk.injEq]
  have hr : round2 (1 / 7 : ℚ) = 7 / 50 := by
    have hf : ⌊(1 / 7 : ℚ) * 100⌋ = 14 := by apply floor_eval <;> norm_num
    rw [round2_lt hf (by norm_num)]; norm_num
  have hone : ∀ l, (l == 'A' || l == 'B') = false →
      bannerWidthAuto 1 ['C', 'D', 'E', 'F', 'G', 'H', 'I'] l = 7 / 50 := by
    intro l h
    simp only [bannerWidthAuto, h, Bool.false_eq_true, if_false, hap]
    norm_num [hr]
  have hbt : bannerTotal ⟨['A', 'B'], [], some 1, "footnotesize"⟩ = 49 / 50 := by
    simp only [bannerTotal, hfl, he]
    simp only [List.map_cons, List.map_nil, hone 'C' (by decide), hone 'D' (by decide),
      hone 'E' (by decide), hone 'F' (by decide), hone 'G' (by decide), hone 'H' (by decide),
      hone 'I' (by decide), List.sum_cons, List.sum_nil]
    norm_num
  constructor
  · decide
  · rw [hbt, abs_sub_comm, abs_of_nonneg (by norm_num)]; norm_num

/-- C3: for nine of the ten special characters, escaping the
single-character string yields exactly the mapped escape sequence; for the
backslash the code instead yields `\textbackslash\{\}`, because the braces
introduced by the backslash substitution are re-escaped by the later brace
substitutions — not the `\textbackslash{}` the claim requires. -/
theorem c3_escape_single_chars :
    escapeLatex (.str "&") = "\\&" ∧ escapeLatex (.str "%") = "\\%"
      ∧ escapeLatex (.str "$") = "\\$" ∧ escapeLatex (.str "#") = "\\#"
      ∧ escapeLatex (.str "_") = "\\_" ∧ escapeLatex (.str "\x7b") = "\\\x7b"
      ∧ escapeLatex (.str "\x7d") = "\\\x7d"
      ∧ escapeLatex (.str "~") = "\\textasciitilde\x7b\x7d"
      ∧ escapeLatex (.str "^") = "\\textasciicircum\x7b\x7d"
      ∧ escapeLatex (.str "\\") = "\\textbackslash\\\x7b\\\x7d"
      ∧ escapeLatex (.str "\\") ≠ "\\textbackslash\x7b\x7d" := by
  decide

/-- C6, counterexample: with `total_table_width = 1` and no exclusions
(`n_AB = 2`, `n_others = 7`, denominator 13) the emitted A/B width is
`0.23` while three times the emitted other width is `0.24`: the 3:1 ratio
does not survive independent 2-decimal formatting. -/
theorem c6_counterexample_emitted :
    0 < nAB (finalLetters []) ∧ 0 < nOthers (finalLetters [])
      ∧ round2 (autoWidthPair (effTotalWidth 1) (finalLetters [])).1 = 23 / 100
      ∧ 3 * round2 (autoWidthPair (effTotalWidth 1) (finalLetters [])).2 = 24 / 100
      ∧ round2 (autoWidthPair (effTotalWidth 1) (finalLetters [])).1
          ≠ 3 * round2 (autoWidthPair (effTotalWidth 1) (finalLetters [])).2 := by
  have hfl : finalLetters [] = ['A', 'B', 'C', 'D', 'E', 'F', 'G', 'H', 'I'] := by decide
  have he : effTotalWidth 1 = 1 := by rw [effTotalWidth, if_neg (by norm_num)]
  have hap : autoWidthPair 1 ['A', 'B', 'C', 'D', 'E', 'F', 'G', 'H', 'I'] = (3 / 13, 1 / 13) := by
    rw [autoWidthPair, if_pos (by decide)]
    rw [show nAB ['A', 'B', 'C', 'D', 'E', 'F', 'G', 'H', 'I'] = 2 from by decide,
        show nOthers ['A', 'B', 'C', 'D', 'E', 'F', 'G', 'H', 'I'] = 7 from by decide]
    norm_num [Prod.mk.injEq]
  have h23 : round2 (3 / 13 : ℚ) = 23 / 100 := by
    have hf : ⌊(3 / 13 : ℚ) * 100⌋ = 23 := by apply floor_eval <;> norm_num
    rw [round2_lt hf (by norm_num)]; norm_num
  have h08 : round2 (1 / 13 : ℚ) = 8 / 100 := by
    have hf : ⌊(1 / 13 : ℚ) * 100⌋ = 7 := by apply floor_eval <;> norm_num
    rw [round2_gt hf (by norm_num)]; norm_num
  rw [hfl, he, hap]
  refine ⟨by decide, by decide, ?_, ?_, ?_⟩
  · simpa using h23
  · simp only [Prod.snd]; rw [h08]; norm_num
  · simp only [Prod.fst, Prod.snd]; rw [h23, h08]; norm_num

/-- C7, counterexample: with every column excluded and requested total
width `2`, both fallback widths are `1.0` — not the requested total width
`2` the claim asserts. -/
theorem c7_counterexample_fallback :
    autoWidthPair (effTotalWidth 2) (finalLetters allLetters) = (1, 1)
      ∧ ((1 : ℚ), (1 : ℚ)) ≠ ((2 : ℚ), (2 : ℚ)) := by
  decide

/-- C10: the values `0`, `0.0` and `False` are counted as non-empty by the
row-skip and section-header tests (their stringification is non-blank),
yet `escape_latex` maps each of them to the empty string, so a row whose
only participating content is such a value is emitted with that cell
rendered blank. -/
theorem c10_falsy_nonempty :
    cellNonEmpty (Value.int 0) = true ∧ cellNonEmpty (Value.float 0) = true
      ∧ cellNonEmpty (Value.bool false) = true
      ∧ escapeLatex (Value.int 0) = "" ∧ escapeLatex (Value.float 0) = ""
      ∧ escapeLatex (Value.bool false) = ""
      ∧ bodyRows ['B', 'C', 'D', 'E'] (finalIndices ['B', 'C', 'D', 'E'])
          [[Value.none, Value.none, Value.none, Value.none, Value.none,
            Value.int 0, Value.none, Value.none, Value.none]]
        = [" &  &  &  &  \\"] := by
  have h0 : floatStr 0 = "0.0" := by
    rw [floatStr, if_neg (by norm_num), abs_zero, Int.floor_zero, Int.cast_zero, sub_zero,
      fracDigits_zero 17]
    rfl
  have hps : pyStr (Value.float 0) = "0.0".data := by
    simp only [pyStr]; rw [h0]
  have hpt : pyTruthy (Value.float 0) = false := by
    simp only [pyTruthy]; norm_num
  have hcf : cellNonEmpty (Value.float 0) = true := by
    rw [show cellNonEmpty (Value.float 0) = !(pyStrip (pyStr (Value.float 0))).isEmpty from rfl,
      hps]
    decide
  have hef : escapeLatex (Value.float 0) = "" := by
    rw [escapeLatex, escLatexChars, hpt]
    decide
  exact ⟨by decide, hcf, by decide, by decide, hef, by decide, by decide⟩

/-- A single-character replace is the identity when the pattern character
is absent. -/
theorem replaceChar_id {c : Char} {r s : List Char} (h : ∀ x ∈ s, x ≠ c) :
    replaceChar c r s = s := by
  induction s with
  | nil => rfl
  | cons a as ih =>
    rw [replaceChar, if_neg (h a (List.mem_cons_self a as)),
      ih (fun x hx => h x (List.mem_cons_of_mem a hx))]
    rfl

/-- A chain of single-character replaces is the identity when none of the
pattern characters occurs in the string. -/
theorem foldl_replace_id (rules : List (Char × List Char)) (s : List Char)
    (h : ∀ p ∈ rules, ∀ x ∈ s, x ≠ p.1) :
    rules.foldl (fun acc p => replaceChar p.1 p.2 acc) s = s := by
  induction rules with
  | nil => rfl
  | cons p ps ih =>
    rw [List.foldl_cons, replaceChar_id (h p (List.mem_cons_self p ps))]
    exact ih (fun q hq => h q (List.mem_cons_of_mem p hq))

/-- `_escape_chars` is the identity on strings without special characters. -/
theorem escChars_id {s : List Char} (h : ∀ x ∈ s, x ∉ escRuleChars) : escChars s = s := by
  rw [escChars]
  apply foldl_replace_id
  intro p hp x hx heq
  exact h x hx (heq ▸ (show ∀ p ∈ escRules, p.1 ∈ escRuleChars from by decide) p hp)

/-- A string that strips to empty consists of whitespace only. -/
theorem pyStrip_eq_nil {s : List Char} (h : pyStrip s = []) : ∀ c ∈ s, isPySpace c = true := by
  intro c hc
  rw [pyStrip, List.reverse_eq_nil_iff, List.dropWhile_eq_nil_iff] at h
  rw [show s = s.takeWhile isPySpace ++ s.dropWhile isPySpace from
    (List.takeWhile_append_dropWhile isPySpace s).symm] at hc
  rcases List.mem_append.mp hc with h1 | h2
  · exact List.mem_takeWhile_imp h1
  · exact h c (List.mem_reverse.mpr h2)

/-- Whitespace characters are neither LaTeX-special nor the bullet. -/
theorem pySpace_not_special {c : Char} (h : isPySpace c = true) :
    c ∉ escRuleChars ∧ c ≠ '•' := by
  simp only [isPySpace, Bool.or_eq_true, beq_iff_eq] at h
  rcases h with ((((rfl | rfl) | rfl) | rfl) | rfl) | rfl <;> exact ⟨by decide, by decide⟩

/-- Escaping a value whose stringification strips to empty yields a
whitespace-only string. -/
theorem strip_nil_esc {v : Value} (hstrip : pyStrip (pyStr v) = []) :
    ∀ c ∈ escLatexChars v, isPySpace c = true := by
  intro c hc
  have hall : ∀ x ∈ pyStr v, isPySpace x = true := pyStrip_eq_nil hstrip
  rw [escLatexChars] at hc
  by_cases ht : pyTruthy v = true
  · rw [if_pos ht] at hc
    have hnb : ((pyStr v).contains '•') = false := by
      rcases hb : (pyStr v).contains '•' with _ | _
      · rfl
      · exact absurd ((pySpace_not_special (hall '•' (List.mem_of_elem_eq_true hb))).2) (by simp)
    rw [if_neg (by rw [hnb]; exact Bool.false_ne_true)] at hc
    rw [escChars_id (fun x hx => (pySpace_not_special (hall x hx)).1)] at hc
    exact hall c hc
  · rw [if_neg ht] at hc
    exact absurd hc (List.not_mem_nil c)

/-- Escaping a cell that is empty per the row emitter's emptiness test
yields a whitespace-only string. -/
theorem escLatex_whitespace {v : Value} (h : cellNonEmpty v = false) :
    ∀ c ∈ escLatexChars v, isPySpace c = true := by
  cases v with
  | none => intro c hc; rw [escLatexChars, if_neg (by decide)] at hc; exact absurd hc (List.not_mem_nil c)
  | str s =>
    exact strip_nil_esc (List.isEmpty_iff.mp (by simpa [cellNonEmpty] using h))
  | int n =>
    exact strip_nil_esc (List.isEmpty_iff.mp (by simpa [cellNonEmpty] using h))
  | float q =>
    exact strip_nil_esc (List.isEmpty_iff.mp (by simpa [cellNonEmpty] using h))
  | bool b =>
    exact strip_nil_esc (List.isEmpty_iff.mp (by simpa [cellNonEmpty] using h))

/-- Projecting the escaped row at an index equals escaping the projected
raw cell (both read an absent cell as empty). -/
theorem escape_getD (row : List Value) (i : ℕ) :
    (row.map escapeLatex).getD i "" = escapeLatex (row.getD i Value.none) := by
  rw [show ("" : String) = escapeLatex Value.none from rfl, List.getD_map]

/-- When column A participates it is the first participating column, at
index 0. -/
theorem finalIndices_of_A (excl : List Char) (hA : excl.contains 'A' = false) :
    finalIndices excl
      = 0 :: ((['B', 'C', 'D', 'E', 'F', 'G', 'H', 'I'].filter
          (fun l => !(excl.contains l))).map colIndex) := by
  rw [finalIndices, finalLetters, allLetters, List.filter_cons, hA, Bool.not_false,
    if_pos rfl, List.map_cons]
  rfl

/-- C5: when column A participates and its raw value is non-empty, a row
whose other participating cells are all empty is emitted with the
background-highlight marker, its first cell is the escaped content of
column A, and all its other cells are whitespace-only — so A's escaped
content is the row's sole content; a row that also has content in some
other participating column is emitted as the plain, non-highlighted row. -/
theorem c5_section_header_rule (excl : List Char) (row : List Value)
    (hA : excl.contains 'A' = false)
    (hAc : cellNonEmpty (row.getD 0 Value.none) = true) :
    (((finalIndices excl).drop 1).all
        (fun i => !cellNonEmpty (row.getD i Value.none)) = true →
      rowLine excl (finalIndices excl) row
          = some ("\\rowcolor\x7bheadercolor\x7d"
              ++ String.intercalate " & " (rowCells (finalIndices excl) row) ++ " \\")
        ∧ (rowCells (finalIndices excl) row).getD 0 ""
            = escapeLatex (row.getD 0 Value.none)
        ∧ ∀ s ∈ (rowCells (finalIndices excl) row).drop 1, ∀ c ∈ s.data, isPySpace c = true)
    ∧ (((finalIndices excl).drop 1).any
          (fun i => cellNonEmpty (row.getD i Value.none)) = true →
      rowLine excl (finalIndices excl) row
          = some (String.intercalate " & " (rowCells (finalIndices excl) row) ++ " \\")) := by
  obtain ⟨T, hfi⟩ : ∃ T, finalIndices excl = 0 :: T := ⟨_, finalIndices_of_A excl hA⟩
  have hof : originalFiltered (finalIndices excl) row
      = row.getD 0 Value.none :: T.map (fun i => row.getD i Value.none) := by
    rw [originalFiltered, hfi]; simp only [List.map_cons]
  have hdrop : (finalIndices excl).drop 1 = T := by rw [hfi]; rfl
  have hcontent : rowHasContent (finalIndices excl) row = true := by
    rw [rowHasContent, hof, List.any_cons, hAc, Bool.true_or]
  have hhead : hasContentOnlyInA excl (finalIndices excl) row
      = (T.map (fun i => row.getD i Value.none)).all (fun c => !cellNonEmpty c) := by
    rw [hasContentOnlyInA, if_neg (by rw [hA]; exact Bool.false_ne_true), hof,
      List.getD_cons_zero, hAc]
    simp
  constructor
  · intro hEmp
    rw [hdrop] at hEmp
    have hAll : (T.map (fun i => row.getD i Value.none)).all (fun c => !cellNonEmpty c) = true := by
      rw [List.all_eq_true] at hEmp ⊢
      intro x hx
      obtain ⟨i, hi, rfl⟩ := List.mem_map.mp hx
      exact hEmp i hi
    refine ⟨?_, ?_, ?_⟩
    · rw [rowLine, if_pos hcontent, emitLine, if_pos (by rw [hhead]; exact hAll)]
    · rw [rowCells, hfi]
      simp only [List.map_cons, List.getD_cons_zero]
      exact escape_getD row 0
    · intro s hs c hc
      rw [rowCells, hfi] at hs
      simp only [List.map_cons, List.drop_succ_cons, List.drop_zero] at hs
      obtain ⟨i, hi, rfl⟩ := List.mem_map.mp hs
      have hEmpty : cellNonEmpty (row.getD i Value.none) = false := by
        rw [List.all_eq_true] at hEmp
        simpa using hEmp i hi
      rw [escape_getD row i] at hc
      exact escLatex_whitespace hEmpty c hc
  · intro hAny
    rw [hdrop] at hAny
    have hAllF : (T.map (fun i => row.getD i Value.none)).all (fun c => !cellNonEmpty c) = false := by
      obtain ⟨i, hi, hnc⟩ := List.any_eq_true.mp hAny
      rcases hall : (T.map (fun i => row.getD i Value.none)).all (fun c => !cellNonEmpty c) with _ | _
      · rfl
      · exfalso
        rw [List.all_eq_true] at hall
        have := hall _ (List.mem_map_of_mem (fun i => row.getD i Value.none) hi)
        rw [hnc] at this
        simp at this
    rw [rowLine, if_pos hcontent, emitLine,
      if_neg (by rw [hhead, hAllF]; exact Bool.false_ne_true)]

/-- Witness for C5 at a concrete one-cell section-header row. -/
theorem c5_section_header_rule_witness :
    rowLine ['B', 'C', 'D', 'E'] (finalIndices ['B', 'C', 'D', 'E']) [Value.str "Intro"]
      = some ("\\rowcolor\x7bheadercolor\x7d"
          ++ String.intercalate " & "
              (rowCells (finalIndices ['B', 'C', 'D', 'E']) [Value.str "Intro"]) ++ " \\") :=
  ((c5_section_header_rule ['B', 'C', 'D', 'E'] [Value.str "Intro"] (by decide) (by decide)).1
    (by decide)).1

/-- C8, counterexample: `"a•b"` contains none of the ten LaTeX-special
characters, yet `escape_latex` rewrites it through the bullet branch
instead of returning it unchanged. -/
theorem c8_counterexample_bullet :
    ("a•b".data.all (fun c => !(escRuleChars.contains c))) = true
      ∧ escapeLatex (Value.str "a•b") = "• a \\newline • b"
      ∧ escapeLatex (Value.str "a•b") ≠ "a•b" := by
  decide

/-- C8, amended: `escape_latex` is the identity on every string that
contains none of the ten special characters and also does not contain the
bullet delimiter `•`. -/
theorem c8_identity_on_safe (s : String)
    (hs : ∀ c ∈ s.data, c ∉ escRuleChars) (hb : '•' ∉ s.data) :
    escapeLatex (Value.str s) = s := by
  by_cases he : s.data.isEmpty = true
  · cases s with
    | mk d =>
      rw [List.isEmpty_iff] at he
      rw [show d = [] from he]
      rfl
  · rw [escapeLatex, escLatexChars,
      if_pos (show pyTruthy (Value.str s) = true from by
        simp [pyTruthy, Bool.not_eq_true] at he ⊢
        exact he)]
    have hnb : (pyStr (Value.str s)).contains '•' = false := by
      rcases hc : (pyStr (Value.str s)).contains '•' with _ | _
      · rfl
      · exact absurd (List.mem_of_elem_eq_true hc) hb
    rw [if_neg (by rw [hnb]; exact Bool.false_ne_true)]
    rw [show pyStr (Value.str s) = s.data from rfl, escChars_id hs]

/-- Witness for the amended C8 on a plain alphanumeric string. -/
theorem c8_identity_on_safe_witness :
    escapeLatex (Value.str "Hello 123") = "Hello 123" :=
  c8_identity_on_safe "Hello 123" (by decide) (by decide)

/-- C9: on any string containing the bullet delimiter, `escape_latex`
performs exactly the spec's pipeline: newlines collapsed to spaces, split
on the bullet delimiter, fragments trimmed and blank ones discarded, each
fragment escaped independently through the character-escaping rules,
prefixed with the bullet marker and joined with the line-break marker. -/
theorem c9_bullet_mode (s : String) (hb : '•' ∈ s.data) :
    escapeLatex (Value.str s) = String.mk (bulletModeSpec s.data) := by
  rw [escapeLatex, escLatexChars,
    if_pos (show pyTruthy (Value.str s) = true from by
      rcases s with ⟨_ | ⟨a, as⟩⟩
      · exact absurd hb (List.not_mem_nil _)
      · rfl),
    if_pos (show (pyStr (Value.str s)).contains '•' = true from List.elem_eq_true_of_mem hb)]
  rfl

/-- Witness for C9 on the spec's scenario string, evaluated to the two
escaped fragments joined by the line-break marker. -/
theorem c9_bullet_mode_witness :
    ('•' ∈ "• First\n• Second".data)
      ∧ escapeLatex (Value.str "• First\n• Second") = "• First \\newline • Second" :=
  ⟨by decide, (c9_bullet_mode "• First\n• Second" (by decide)).trans (by decide)⟩

/-- Half-to-even rounding moves a value by at most one half. -/
theorem abs_rhe_sub_le (q : ℚ) : |(rhe q : ℚ) - q| ≤ 1 / 2 := by
  have h0 : (0 : ℚ) ≤ q - ⌊q⌋ := by have := Int.floor_le q; linarith
  have h1 : q - ⌊q⌋ < 1 := by have := Int.lt_floor_add_one q; linarith
  rw [rhe]
  split_ifs with hlt hgt heven
  · rw [abs_le]; constructor <;> linarith
  · push_cast
    rw [abs_le]; constructor <;> linarith
  · have heq : q - ⌊q⌋ = 1 / 2 := le_antisymm (not_lt.mp hgt) (not_lt.mp hlt)
    rw [abs_le]; constructor <;> linarith
  · have heq : q - ⌊q⌋ = 1 / 2 := le_antisymm (not_lt.mp hgt) (not_lt.mp hlt)
    push_cast
    rw [abs_le]; constructor <;> linarith

/-- Two-decimal formatting moves a value by at most `0.005`. -/
theorem abs_round2_sub_le (q : ℚ) : |round2 q - q| ≤ 1 / 200 := by
  have h := abs_rhe_sub_le (q * 100)
  rw [round2, show (rhe (q * 100) : ℚ) / 100 - q = ((rhe (q * 100) : ℚ) - q * 100) / 100 from
    by ring, abs_div, show |(100 : ℚ)| = 100 from by norm_num]
  linarith

/-- Unfolding `n_AB` over a cons cell. -/
theorem nAB_cons (c : Char) (cs : List Char) :
    nAB (c :: cs) = (if (c == 'A' || c == 'B') = true then 1 else 0) + nAB cs := by
  simp only [nAB, List.filter_cons]
  by_cases h : (c == 'A' || c == 'B') = true
  · rw [if_pos h, if_pos h, List.length_cons]; omega
  · rw [if_neg h, if_neg h]; omega

/-- Unfolding `n_others` over a cons cell. -/
theorem nOthers_cons (c : Char) (cs : List Char) :
    nOthers (c :: cs) = (if (c == 'A' || c == 'B') = true then 0 else 1) + nOthers cs := by
  simp only [nOthers, List.filter_cons]
  by_cases h : (c == 'A' || c == 'B') = true
  · rw [if_pos h, h, Bool.not_true, if_neg Bool.false_ne_true]; omega
  · have hc : (c == 'A' || c == 'B') = false := by
      revert h; cases (c == 'A' || c == 'B') <;> simp
    rw [if_neg h, hc, Bool.not_false, if_pos rfl, List.length_cons]; omega

/-- A letterwise A/B-versus-other sum collapses to the two column counts. -/
theorem sum_if_AB (fl : List Char) (a b : ℚ) :
    (fl.map (fun l => if (l == 'A' || l == 'B') = true then a else b)).sum
      = (nAB fl : ℚ) * a + (nOthers fl : ℚ) * b := by
  induction fl with
  | nil => simp [nAB, nOthers]
  | cons c cs ih =>
    rw [List.map_cons, List.sum_cons, ih, nAB_cons, nOthers_cons]
    by_cases h : (c == 'A' || c == 'B') = true
    · rw [if_pos h, if_pos h, if_pos h]
      push_cast; ring
    · rw [if_neg h, if_neg h, if_neg h]
      push_cast; ring

/-- Rounding each summand of an exact decomposition moves the weighted
sum by at most `0.005` per unit of weight. -/
theorem roundedSum_bound {n1 n2 w1 w2 t : ℚ} (h1 : 0 ≤ n1) (h2 : 0 ≤ n2)
    (hsum : n1 * w1 + n2 * w2 = t)
    (ha : |round2 w1 - w1| ≤ 1 / 200) (hb : |round2 w2 - w2| ≤ 1 / 200) :
    |n1 * round2 w1 + n2 * round2 w2 - t| ≤ (n1 + n2) / 200 := by
  have key : n1 * round2 w1 + n2 * round2 w2 - t
      = n1 * (round2 w1 - w1) + n2 * (round2 w2 - w2) := by rw [← hsum]; ring
  rw [key]
  calc |n1 * (round2 w1 - w1) + n2 * (round2 w2 - w2)|
      ≤ |n1 * (round2 w1 - w1)| + |n2 * (round2 w2 - w2)| := abs_add _ _
    _ = n1 * |round2 w1 - w1| + n2 * |round2 w2 - w2| := by
        rw [abs_mul, abs_mul, abs_of_nonneg h1, abs_of_nonneg h2]
    _ ≤ n1 * (1 / 200) + n2 * (1 / 200) := by gcongr
    _ = (n1 + n2) / 200 := by ring

/-- C2, amended: for every positive requested total width and any split
with at least one participating column, the sum of the unrounded computed
widths equals the requested total exactly, and the sum of the emitted
2-decimal-formatted widths (the recomputed banner total) differs from the
requested total by at most `0.005` per participating column — a bound
that exceeds the claimed `0.01` once more than two columns participate,
as the counterexample shows. -/
theorem c2_width_conservation (t : ℚ) (excl : List Char) (ht : 0 < t)
    (hn : 0 < nAB (finalLetters excl) + nOthers (finalLetters excl)) :
    (nAB (finalLetters excl) : ℚ) * (autoWidthPair t (finalLetters excl)).1
        + (nOthers (finalLetters excl) : ℚ) * (autoWidthPair t (finalLetters excl)).2 = t
      ∧ |bannerTotal ⟨excl, [], some t, "footnotesize"⟩ - t|
          ≤ ((nAB (finalLetters excl) : ℚ) + (nOthers (finalLetters excl) : ℚ)) / 200 := by
  have hd : 0 < 3 * nAB (finalLetters excl) + nOthers (finalLetters excl) := by omega
  have hdQ : (0 : ℚ) < 3 * (nAB (finalLetters excl) : ℚ) + (nOthers (finalLetters excl) : ℚ) := by
    exact_mod_cast hd
  have hap : autoWidthPair t (finalLetters excl)
      = (3 * (t / (3 * (nAB (finalLetters excl) : ℚ) + (nOthers (finalLetters excl) : ℚ))),
         t / (3 * (nAB (finalLetters excl) : ℚ) + (nOthers (finalLetters excl) : ℚ))) := by
    rw [autoWidthPair, if_pos hd]
  have hwo : (0 : ℚ) ≤ t / (3 * (nAB (finalLetters excl) : ℚ) + (nOthers (finalLetters excl) : ℚ)) :=
    le_of_lt (div_pos ht hdQ)
  have hpart1 : (nAB (finalLetters excl) : ℚ) * (autoWidthPair t (finalLetters excl)).1
      + (nOthers (finalLetters excl) : ℚ) * (autoWidthPair t (finalLetters excl)).2 = t := by
    rw [hap]
    field_simp
    ring
  refine ⟨hpart1, ?_⟩
  have he : effTotalWidth t = t := by rw [effTotalWidth, if_neg (ne_of_gt ht)]
  have hfun : bannerWidthAuto t (finalLetters excl)
      = (fun l => if (l == 'A' || l == 'B') = true
          then round2 (autoWidthPair t (finalLetters excl)).1
          else round2 (autoWidthPair t (finalLetters excl)).2) := by
    funext l
    by_cases hl : (l == 'A' || l == 'B') = true
    · rw [bannerWidthAuto, if_pos hl, if_pos hl, if_pos (by rw [hap]; simpa using by linarith)]
    · rw [bannerWidthAuto, if_neg hl, if_neg hl, if_pos (by rw [hap]; simpa using hwo)]
  have hbt : bannerTotal ⟨excl, [], some t, "footnotesize"⟩
      = (nAB (finalLetters excl) : ℚ) * round2 (autoWidthPair t (finalLetters excl)).1
        + (nOthers (finalLetters excl) : ℚ) * round2 (autoWidthPair t (finalLetters excl)).2 := by
    simp only [bannerTotal, he, hfun]
    exact sum_if_AB (finalLetters excl) _ _
  rw [hbt]
  exact roundedSum_bound (by positivity) (by positivity) hpart1
    (abs_round2_sub_le (autoWidthPair t (finalLetters excl)).1)
    (abs_round2_sub_le (autoWidthPair t (finalLetters excl)).2)

/-- C6, amended: the computed (pre-formatting) A/B width is exactly three
times the computed other-column width whenever both counts are positive;
after the two widths are independently formatted to 2 decimals, the 3:1
relation only holds within `0.02` and can fail exactly, as the
counterexample shows. -/
theorem c6_three_to_one (t : ℚ) (excl : List Char)
    (h1 : 0 < nAB (finalLetters excl)) (h2 : 0 < nOthers (finalLetters excl)) :
    (autoWidthPair t (finalLetters excl)).1 = 3 * (autoWidthPair t (finalLetters excl)).2
      ∧ |round2 (autoWidthPair t (finalLetters excl)).1
          - 3 * round2 (autoWidthPair t (finalLetters excl)).2| ≤ 1 / 50 := by
  have hd : 0 < 3 * nAB (finalLetters excl) + nOthers (finalLetters excl) := by omega
  have hap : autoWidthPair t (finalLetters excl)
      = (3 * (t / (3 * (nAB (finalLetters excl) : ℚ) + (nOthers (finalLetters excl) : ℚ))),
         t / (3 * (nAB (finalLetters excl) : ℚ) + (nOthers (finalLetters excl) : ℚ))) := by
    rw [autoWidthPair, if_pos hd]
  have hratio : (autoWidthPair t (finalLetters excl)).1
      = 3 * (autoWidthPair t (finalLetters excl)).2 := by rw [hap]
  refine ⟨hratio, ?_⟩
  have ha := abs_round2_sub_le (autoWidthPair t (finalLetters excl)).1
  have hb := abs_round2_sub_le (autoWidthPair t (finalLetters excl)).2
  calc |round2 (autoWidthPair t (finalLetters excl)).1
          - 3 * round2 (autoWidthPair t (finalLetters excl)).2|
      = |(round2 (autoWidthPair t (finalLetters excl)).1 - (autoWidthPair t (finalLetters excl)).1)
          + 3 * ((autoWidthPair t (finalLetters excl)).2
            - round2 (autoWidthPair t (finalLetters excl)).2)| := by
        rw [hratio]; ring_nf
    _ ≤ |round2 (autoWidthPair t (finalLetters excl)).1 - (autoWidthPair t (finalLetters excl)).1|
        + |3 * ((autoWidthPair t (finalLetters excl)).2
            - round2 (autoWidthPair t (finalLetters excl)).2)| := abs_add _ _
    _ = |round2 (autoWidthPair t (finalLetters excl)).1 - (autoWidthPair t (finalLetters excl)).1|
        + 3 * |(autoWidthPair t (finalLetters excl)).2
            - round2 (autoWidthPair t (finalLetters excl)).2| := by
        rw [abs_mul, abs_of_nonneg (by norm_num : (0:ℚ) ≤ 3)]
    _ ≤ 1 / 200 + 3 * (1 / 200) := by
        have hb2 : |(autoWidthPair t (finalLetters excl)).2
            - round2 (autoWidthPair t (finalLetters excl)).2| ≤ 1 / 200 := by
          rw [abs_sub_comm]; exact hb
        gcongr
    _ = 1 / 50 := by norm_num

/-- C4: the emitted body is exactly the original row sequence filtered to
the rows with at least one non-empty participating cell, each such row
contributing exactly one line, in original sheet order; all-empty rows
contribute nothing. -/
theorem c4_row_skip_law (excl : List Char) (rows : List (List Value)) :
    bodyRows excl (finalIndices excl) rows
      = (rows.filter (fun r => rowHasContent (finalIndices excl) r)).map
          (emitLine excl (finalIndices excl)) := by
  induction rows with
  | nil => rfl
  | cons r rs ih =>
    simp only [bodyRows, List.filterMap_cons, List.filter_cons, rowLine] at ih ⊢
    by_cases h : rowHasContent (finalIndices excl) r
    · simp [h, ih]
    · simp [h, ih]

set_option maxRecDepth 8192 in
/-- C7, amended: with every column excluded, the auto-distribution
fallback sets both widths to `1.0` — not the requested total width — for
every requested total width, and rendering completes without error,
producing the fixed degenerate table below. -/
theorem c7_zero_columns_fallback (t : ℚ) :
    autoWidthPair (effTotalWidth t) (finalLetters allLetters) = (1, 1)
      ∧ processWorksheet ⟨allLetters, [], some t, "footnotesize"⟩ ⟨Value.none, [], []⟩
        = "% Add these packages to your LaTeX document preamble:\n% \\usepackage\x7barray\x7d\n% \\usepackage\x7bxcolor\x7d\n% \\usepackage\x7bcolortbl\x7d\n% \\usepackage\x7blongtable\x7d\n\\definecolor\x7bheadercolor\x7d\x7bHTML\x7d\x7b00ACD2\x7d\n\n\n\\footnotesize\n\\begin\x7blongtable\x7d\x7b||\x7d\n\\hline\n\\rowcolor\x7bheadercolor\x7d\\multicolumn\x7b0\x7d\x7b|c|\x7d\x7b\\parbox[c][4ex][c]\x7b0.00cm\x7d\x7b\\centering\\textcolor\x7bwhite\x7d\x7b\\textbf\x7b\\normalsize\x7bTable\x7d\x7d\x7d\x7d\x7d \\\\\n\\hline\n\\rowcolor\x7bheadercolor\x7d \\\\\n\\hline\n\\endfirsthead\n\n\\hline\n\\rowcolor\x7bheadercolor\x7d\\multicolumn\x7b0\x7d\x7b|c|\x7d\x7b\\parbox[c][4ex][c]\x7b0.00cm\x7d\x7b\\centering\\textcolor\x7bwhite\x7d\x7b\\textbf\x7b\\normalsize\x7bTable\x7d (continued)\x7d\x7d\x7d\x7d \\\\\n\\hline\n\\rowcolor\x7bheadercolor\x7d \\\\\n\\hline\n\\endhead\n\n\\hline\n\\multicolumn\x7b0\x7d\x7b|r|\x7d\x7b\\textit\x7bContinued on next page...\x7d\x7d \\\\\n\\hline\n\\endfoot\n\n\\hline\n\\endlastfoot\n\n\\end\x7blongtable\x7d" := by
  have hfl : finalLetters allLetters = [] := by decide
  have hbt : bannerTotal ⟨allLetters, [], some t, "footnotesize"⟩ = 0 := by
    simp only [bannerTotal, hfl, List.map_nil, List.sum_nil]
  have hr0 : rhe ((0 : ℚ) * 100) = 0 := by
    rw [show (0 : ℚ) * 100 = 0 from by norm_num]
    exact rhe_lt (by norm_num) (by norm_num)
  have hf : fmt2 (0 : ℚ) = "0.00" := by
    rw [fmt2, hr0]
    decide
  constructor
  · rw [hfl, autoWidthPair, if_neg (by decide)]
    rfl
  · rw [processWorksheet]
    rw [hbt, hf, hfl]
    rfl

/-- Witness for the amended C2 at total width 1 with A and B excluded. -/
theorem c2_width_conservation_witness :
    ((nAB (finalLetters ['A', 'B']) : ℚ) * (autoWidthPair 1 (finalLetters ['A', 'B'])).1
        + (nOthers (finalLetters ['A', 'B']) : ℚ) * (autoWidthPair 1 (finalLetters ['A', 'B'])).2
        = 1)
      ∧ |bannerTotal ⟨['A', 'B'], [], some 1, "footnotesize"⟩ - 1|
          ≤ ((nAB (finalLetters ['A', 'B']) : ℚ) + (nOthers (finalLetters ['A', 'B']) : ℚ)) / 200 :=
  c2_width_conservation 1 ['A', 'B'] (by norm_num) (by decide)

/-- Witness for the amended C6 at total width 1 with no exclusions. -/
theorem c6_three_to_one_witness :
    (autoWidthPair 1 (finalLetters [])).1 = 3 * (autoWidthPair 1 (finalLetters [])).2
      ∧ |round2 (autoWidthPair 1 (finalLetters [])).1
          - 3 * round2 (autoWidthPair 1 (finalLetters [])).2| ≤ 1 / 50 :=
  c6_three_to_one 1 [] (by decide) (by decide)

end LodMatrix
